import Mathlib

/-!
Shallow embedding of the core of the midi_degradation_toolkit repository:
the excerpt windowing, the implemented degradation operators, the
note-level and excerpt-level degradation classifiers, and the proportion
estimator, together with theorems settling the specification claims.

Sources embedded:
 - measure_errors.py : get_df_excerpt, get_note_degs, get_excerpt_degs,
   get_proportions
 - mdtk/degradations.py : get_degradations (vocabulary order),
   pitch_shift, remove_note

Conventions of the embedding: a pandas note_df becomes a list of notes
kept in row order; numpy rand.randint(lo, hi) becomes lo + seed % (hi -
lo) for an externally supplied seed, uniform over [lo, hi) when lo < hi
and a ValueError otherwise; python exceptions become Option.none.
-/

/-- A row of a note_df: integer onset (ms), track, pitch and duration
(ms), the four columns of the tabular note representation. -/
structure Note where
  onset : Int
  track : Int
  pitch : Int
  dur : Int
  deriving DecidableEq, Repr

/-- The degradation vocabulary in its canonical order: the key order of
the dict built by get_degradations in mdtk/degradations.py, which
measure_errors.py imports as DEGRADATIONS. -/
def DEGRADATIONS : List String :=
  ["pitch_shift", "time_shift", "onset_shift", "offset_shift",
   "remove_note", "add_note"]

/-- Modelled from the spec: MIN_SHIFT_DEFAULT is imported by
measure_errors.py from mdtk.degradations but is absent from the
available source files; the spec fixes the minimum-shift threshold
default at 40 ms. -/
def MIN_SHIFT_DEFAULT : Nat := 40

/-- Row-wise onset shift performed by get_df_excerpt (measure_errors.py
lines 54-59): a note which onsets before start_time and ends after it
has its onset moved to start_time and its duration reduced by the same
amount. -/
def shiftToStart (start_time : Int) (n : Note) : Note :=
  if n.onset < start_time ∧ n.onset + n.dur > start_time then
    { n with onset := start_time, dur := n.dur - (start_time - n.onset) }
  else n

/-- Row-wise shortening performed by get_df_excerpt (lines 61-67): a
note which onsets before end_time and ends after it keeps its onset and
gets duration end_time - onset. -/
def shortenToEnd (end_time : Int) (n : Note) : Note :=
  if n.onset < end_time ∧ n.onset + n.dur > end_time then
    { n with dur := end_time - n.onset }
  else n

/-- The keep filter of get_df_excerpt (lines 69-73): onset at or after
start_time, and before end_time when an end time is given. -/
def keepNote (start_time : Int) (end_time : Option Int) (n : Note) : Bool :=
  decide (start_time ≤ n.onset) &&
    (match end_time with
     | some e => decide (n.onset < e)
     | none => true)

/-- Embedding of get_df_excerpt (measure_errors.py lines 23-74): shift
straddling onsets up to start_time, shorten notes running past
end_time, then keep only the notes whose onset lies inside the window.
The source copies the frame first, so the input is never modified; the
embedding is a pure function. -/
def get_df_excerpt (note_df : List Note) (start_time : Int)
    (end_time : Option Int) : List Note :=
  let df1 := note_df.map (shiftToStart start_time)
  let df2 := match end_time with
    | some e => df1.map (shortenToEnd e)
    | none => df1
  df2.filter (keepNote start_time end_time)

/-- Per-note form of the code pipeline of get_df_excerpt: shift, then
shorten, then keep or drop one note. -/
def codeWindowNote (start_time : Int) (end_time : Option Int) (n : Note) :
    Option Note :=
  let n1 := shiftToStart start_time n
  let n2 := match end_time with
    | some e => shortenToEnd e n1
    | none => n1
  if keepNote start_time end_time n2 then some n2 else none

/-- Per-note windowing written from the words of claim C2 (spec side):
a note ending at or before start_time, or onsetting at or after
end_time, is dropped; a note straddling start_time is truncated to
onset start_time with its duration reduced by the discarded lead; a
note then straddling end_time gets duration end_time - onset. -/
def windowNoteSpec (start_time : Int) (end_time : Option Int) (n : Note) :
    Option Note :=
  if n.onset + n.dur ≤ start_time then none
  else if (match end_time with
           | some e => decide (e ≤ n.onset)
           | none => false) then none
  else
    let n1 := if n.onset < start_time then
        { n with onset := start_time, dur := n.dur - (start_time - n.onset) }
      else n
    let n2 := match end_time with
      | some e =>
          if n1.onset < e ∧ n1.onset + n1.dur > e then
            { n1 with dur := e - n1.onset }
          else n1
      | none => n1
    some n2

/-- Modelled from the spec: the canonical note order of the data model,
ascending lexicographic on (onset, track, pitch, dur); the constant
NOTE_DF_SORT_ORDER that measure_errors.py imports from
mdtk.data_structures is absent from the available source files. -/
def noteKeyLE (a b : Note) : Bool :=
  if a.onset ≠ b.onset then decide (a.onset < b.onset)
  else if a.track ≠ b.track then decide (a.track < b.track)
  else if a.pitch ≠ b.pitch then decide (a.pitch < b.pitch)
  else decide (a.dur ≤ b.dur)

/-- The canonically sorted form of a note list. -/
def sortNotes (df : List Note) : List Note := df.mergeSort noteKeyLE

/-- Embedding of get_note_degs (measure_errors.py lines 143-191): start
from a zero degradation vector, set the pitch_shift entry when pitches
differ, then run the timing decision procedure with the
MIN_SHIFT_DEFAULT threshold, returning early in the small-duration-delta
branch. -/
def get_note_degs (gt_note trans_note : Note) : List Nat :=
  let deg0 := List.replicate DEGRADATIONS.length 0
  let deg1 := if gt_note.pitch ≠ trans_note.pitch then
      deg0.set (DEGRADATIONS.indexOf "pitch_shift") 1
    else deg0
  if (gt_note.dur - trans_note.dur).natAbs < MIN_SHIFT_DEFAULT then
    if (gt_note.onset - trans_note.onset).natAbs < MIN_SHIFT_DEFAULT then
      deg1
    else
      deg1.set (DEGRADATIONS.indexOf "time_shift") 1
  else
    let deg2 := if (gt_note.onset - trans_note.onset).natAbs ≥
        MIN_SHIFT_DEFAULT then
        deg1.set (DEGRADATIONS.indexOf "onset_shift") 1
      else deg1
    if ((gt_note.onset + gt_note.dur) -
        (trans_note.onset + trans_note.dur)).natAbs ≥ MIN_SHIFT_DEFAULT then
      deg2.set (DEGRADATIONS.indexOf "offset_shift") 1
    else deg2

/-- Embedding of get_excerpt_degs (measure_errors.py lines 195-228):
with an empty ground truth every transcribed note counts as an added
note; with an empty transcription every ground-truth note counts as a
removed note; in every other case the general estimation is left
unimplemented in the source and the zero vector is returned. -/
def get_excerpt_degs (gt_excerpt trans_excerpt : List Note) : List Nat :=
  let deg0 := List.replicate DEGRADATIONS.length 0
  if gt_excerpt.length = 0 then
    deg0.set (DEGRADATIONS.indexOf "add_note") trans_excerpt.length
  else if trans_excerpt.length = 0 then
    deg0.set (DEGRADATIONS.indexOf "remove_note") gt_excerpt.length
  else deg0

/-- Parameter dictionary read by pitch_shift: the two keys with the
pitch_shift name prepended that the operator looks up, an absent key
meaning the documented default. -/
structure Params where
  pitch_shift_min_pitch : Option Int := none
  pitch_shift_max_pitch : Option Int := none

/-- Model of numpy rand.randint(lo, hi) driven by one externally
supplied seed: uniform over [lo, hi) when lo < hi. numpy raises
ValueError when lo is not below hi, which callers of this model map to
none. -/
def randint (lo hi : Int) (seed : Nat) : Int :=
  lo + (seed : Int) % (hi - lo)

/-- The resampling while-loop of pitch_shift (mdtk/degradations.py
lines 63-64), driven by a finite list of seeds: draw
randint min_pitch max_pitch until the drawn pitch differs from the
original pitch; none when the seeds run out first, modelling a run of
the loop that has not terminated within that seed stream. -/
def resamplePitch (min_pitch max_pitch original : Int) :
    List Nat → Option Int
  | [] => none
  | s :: rest =>
      let p := randint min_pitch max_pitch s
      if p = original then resamplePitch min_pitch max_pitch original rest
      else some p

/-- Embedding of pitch_shift (mdtk/degradations.py lines 24-66): read
min_pitch and max_pitch from params with defaults 0 and 88, copy the
excerpt, sample one note index uniformly, then resample the pitch of
that note until it differs from the original. The index draw raises
ValueError on an empty excerpt, and the first pitch draw raises
ValueError when max_pitch is not above min_pitch; both are modelled as
none, as is exhaustion of the seed stream. -/
def pitch_shift (excerpt : List Note) (rand_index : Nat)
    (rand_pitches : List Nat) (params : Params) : Option (List Note) :=
  let min_pitch := params.pitch_shift_min_pitch.getD 0
  let max_pitch := params.pitch_shift_max_pitch.getD 88
  if h : excerpt.length = 0 then none
  else
    let note_index := rand_index % excerpt.length
    let hlt : note_index < excerpt.length :=
      Nat.mod_lt _ (Nat.pos_of_ne_zero h)
    let original := (excerpt.get ⟨note_index, hlt⟩).pitch
    if max_pitch ≤ min_pitch then none
    else
      match resamplePitch min_pitch max_pitch original rand_pitches with
      | none => none
      | some p =>
          some (excerpt.set note_index
            { excerpt.get ⟨note_index, hlt⟩ with pitch := p })

/-- Embedding of remove_note (mdtk/degradations.py lines 146-176): a
note index is sampled and then never used; the code drops the dataframe
row labelled 0, which is the first row. The index draw raises
ValueError on an empty excerpt, modelled as none. In Python the chained
call drop(0, inplace=True).reset_index(...) then raises AttributeError
since drop with inplace set returns None; the list returned here is the
content of the note_df of the degraded copy at that point, the excerpt
with its first row removed. -/
def remove_note (excerpt : List Note) (rand_index : Nat) :
    Option (List Note) :=
  if excerpt.length = 0 then none
  else
    let note_index := rand_index % excerpt.length
    some (excerpt.drop 1)

/-- Largest note offset of a note_df, the pandas (onset + dur).max():
none on an empty frame, where pandas produces NaN. -/
def maxOffset (note_df : List Note) : Option Int :=
  (note_df.map fun n => n.onset + n.dur).max?

/-- One iteration of the excerpt loop of get_proportions
(measure_errors.py lines 284-304): the window is skipped when both
excerpts have fewer than min_notes notes; otherwise the body evaluates
the name degs, which is bound nowhere in the source (line 301 binds
excerpt_degs while line 302 reads degs), so python raises NameError,
modelled as none. -/
def proportionsStep (gt_df trans_df : List Note) (end_time : Int)
    (excerpt_length min_notes : Nat)
    (acc : Option (Nat × Nat × List ℚ)) (excerpt_start : Int) :
    Option (Nat × Nat × List ℚ) :=
  match acc with
  | none => none
  | some (num_excerpts, clean_count, deg_counts) =>
      let excerpt_end := min (excerpt_start + (excerpt_length : Int)) end_time
      let gt_excerpt := get_df_excerpt gt_df excerpt_start (some excerpt_end)
      let trans_excerpt :=
        get_df_excerpt trans_df excerpt_start (some excerpt_end)
      if gt_excerpt.length < min_notes ∧ trans_excerpt.length < min_notes then
        some (num_excerpts, clean_count, deg_counts)
      else none

/-- Embedding of get_proportions (measure_errors.py lines 232-312)
after the two files are loaded: window the ground truth to the
transcription bounds, shift its onsets when trans_start is nonzero,
compute the common end time (pandas yields NaN when the windowed ground
truth is empty and the range call then crashes, modelled as none; an
empty transcription alone is harmless because python max keeps its
first argument against NaN), then walk the fixed-length excerpt
windows accumulating counts, and finally divide by the number of
non-clean excerpts with the zero-denominator guard and compute the
clean fraction with its own zero guard. A zero excerpt_length makes
the python range call raise, also modelled as none. -/
def get_proportions (gt_df0 trans_df : List Note) (trans_start : Int)
    (trans_end : Option Int) (excerpt_length min_notes : Nat) :
    Option (List ℚ × ℚ) :=
  if excerpt_length = 0 then none
  else
    let gt_df1 := get_df_excerpt gt_df0 trans_start trans_end
    let gt_df := if trans_start ≠ 0 then
        gt_df1.map fun n => { n with onset := n.onset - trans_start }
      else gt_df1
    match maxOffset gt_df with
    | none => none
    | some gt_max =>
        let end_time := match maxOffset trans_df with
          | none => gt_max
          | some trans_max => max gt_max trans_max
        let num_windows := (end_time.toNat + excerpt_length - 1) / excerpt_length
        let starts := (List.range num_windows).map
          fun k => ((k * excerpt_length : Nat) : Int)
        match starts.foldl
            (proportionsStep gt_df trans_df end_time excerpt_length min_notes)
            (some (0, 0, List.replicate DEGRADATIONS.length 0)) with
        | none => none
        | some (num_excerpts, clean_count, deg_counts) =>
            let proportions := if num_excerpts - clean_count = 0 then deg_counts
              else deg_counts.map
                fun c => c / ((num_excerpts - clean_count : Nat) : ℚ)
            let clean : ℚ := if 0 < num_excerpts then
                (clean_count : ℚ) / (num_excerpts : ℚ)
              else 0
            some (proportions, clean)

lemma get_df_excerpt_eq_filterMap (note_df : List Note) (start_time : Int)
    (end_time : Option Int) :
    get_df_excerpt note_df start_time end_time =
      note_df.filterMap (codeWindowNote start_time end_time) := by
  induction note_df with
  | nil => cases end_time <;> rfl
  | cons n ns ih =>
      cases end_time with
      | none =>
          simp only [get_df_excerpt, List.map_cons, List.filter_cons] at ih ⊢
          by_cases h : keepNote start_time none (shiftToStart start_time n) <;>
            simpa [codeWindowNote, h] using ih
      | some e =>
          simp only [get_df_excerpt, List.map_cons, List.filter_cons] at ih ⊢
          by_cases h : keepNote start_time (some e)
              (shortenToEnd e (shiftToStart start_time n)) <;>
            simpa [codeWindowNote, h] using ih

lemma codeWindowNote_eq_spec (start_time : Int) (end_time : Option Int)
    (n : Note) (hdur : 0 < n.dur) (hs : 0 ≤ start_time)
    (hlt : ∀ e, end_time = some e → start_time < e) :
    codeWindowNote start_time end_time n =
      windowNoteSpec start_time end_time n := by
  rcases n with ⟨o, tr, p, d⟩
  cases end_time with
  | none =>
      simp only [codeWindowNote, windowNoteSpec, shiftToStart, keepNote,
        Bool.and_eq_true, decide_eq_true_eq] at *
      split_ifs <;> simp_all <;> omega
  | some e =>
      have he : start_time < e := hlt e rfl
      simp only [codeWindowNote, windowNoteSpec, shiftToStart, shortenToEnd,
        keepNote, Bool.and_eq_true, decide_eq_true_eq] at *
      split_ifs <;> simp_all <;> omega

lemma get_df_excerpt_zero_none :
    ∀ S : List Note, (∀ n ∈ S, 0 ≤ n.onset) →
      get_df_excerpt S 0 none = S := by
  intro S
  induction S with
  | nil => intro _; rfl
  | cons n ns ih =>
      intro h
      have h0 : 0 ≤ n.onset := h n (by simp)
      have hshift : shiftToStart 0 n = n := by
        simp only [shiftToStart]
        rw [if_neg]
        omega
      have hkeep : keepNote 0 none n = true := by
        simp [keepNote, h0]
      have ih2 := ih fun m hm => h m (List.mem_cons_of_mem n hm)
      simp only [get_df_excerpt, List.map_cons, List.filter_cons,
        hshift, hkeep] at ih2 ⊢
      simpa using ih2

lemma resamplePitch_spec (min_pitch max_pitch original : Int)
    (seeds : List Nat) (p : Int) (hrange : min_pitch < max_pitch)
    (h : resamplePitch min_pitch max_pitch original seeds = some p) :
    p ≠ original ∧ min_pitch ≤ p ∧ p < max_pitch := by
  induction seeds with
  | nil => simp [resamplePitch] at h
  | cons s rest ih =>
      simp only [resamplePitch] at h
      by_cases hc : randint min_pitch max_pitch s = original
      · rw [if_pos hc] at h
        exact ih h
      · rw [if_neg hc] at h
        injection h with h2
        subst h2
        refine ⟨hc, ?_, ?_⟩
        · have hnn : 0 ≤ (s : Int) % (max_pitch - min_pitch) :=
            Int.emod_nonneg _ (by omega)
          simp only [randint]
          omega
        · have hub : (s : Int) % (max_pitch - min_pitch) <
              max_pitch - min_pitch :=
            Int.emod_lt_of_pos _ (by omega)
          simp only [randint]
          omega

lemma get_df_excerpt_length_le (note_df : List Note) (start_time : Int)
    (end_time : Option Int) :
    (get_df_excerpt note_df start_time end_time).length ≤ note_df.length := by
  rw [get_df_excerpt_eq_filterMap]
  exact List.length_filterMap_le _ _

lemma proportionsStep_foldl_skip (gt_df trans_df : List Note)
    (end_time : Int) (excerpt_length min_notes : Nat)
    (hgt : gt_df.length < min_notes) (htr : trans_df.length < min_notes)
    (x : Nat × Nat × List ℚ) :
    ∀ starts : List Int,
      starts.foldl (proportionsStep gt_df trans_df end_time excerpt_length
        min_notes) (some x) = some x := by
  intro starts
  induction starts with
  | nil => rfl
  | cons s rest ih =>
      obtain ⟨a, b, c⟩ := x
      have hstep : proportionsStep gt_df trans_df end_time excerpt_length
          min_notes (some (a, b, c)) s = some (a, b, c) := by
        simp only [proportionsStep]
        rw [if_pos]
        exact ⟨lt_of_le_of_lt (get_df_excerpt_length_le _ _ _) hgt,
          lt_of_le_of_lt (get_df_excerpt_length_le _ _ _) htr⟩
      rw [List.foldl_cons, hstep]
      exact ih

/-- C2: get_df_excerpt keeps exactly the notes that intersect the window
[start_time, end_time): the output notes all have onset in the window,
and the output is the per-note image of the input under the windowing
rule of the claim, which truncates notes straddling start_time, shortens
notes straddling end_time, and drops notes entirely outside. The
embedding is a pure function, so the input list is unmodified. -/
theorem get_df_excerpt_windows_correctly (S : List Note) (start_time : Int)
    (end_time : Option Int)
    (hdur : ∀ n ∈ S, 0 < n.dur) (hs : 0 ≤ start_time)
    (hlt : ∀ e, end_time = some e → start_time < e) :
    (∀ n ∈ get_df_excerpt S start_time end_time,
        start_time ≤ n.onset ∧ ∀ e, end_time = some e → n.onset < e) ∧
      get_df_excerpt S start_time end_time =
        S.filterMap (windowNoteSpec start_time end_time) := by
  constructor
  · intro n hn
    have hk : keepNote start_time end_time n = true := by
      cases end_time <;>
        · simp only [get_df_excerpt, List.mem_filter] at hn
          exact hn.2
    simp only [keepNote, Bool.and_eq_true, decide_eq_true_eq] at hk
    refine ⟨hk.1, ?_⟩
    rintro e rfl
    simpa using hk.2
  · rw [get_df_excerpt_eq_filterMap]
    exact List.filterMap_congr fun n hn =>
      codeWindowNote_eq_spec start_time end_time n (hdur n hn) hs hlt

/-- Witness for C2 at a concrete input: one note cut by the window
[0, 50). -/
theorem get_df_excerpt_windows_correctly_witness :
    (∀ n ∈ get_df_excerpt [⟨0, 0, 60, 100⟩] 0 (some 50),
        (0 : Int) ≤ n.onset ∧ ∀ e, (some 50 : Option Int) = some e → n.onset < e) ∧
      get_df_excerpt [⟨0, 0, 60, 100⟩] 0 (some 50) =
        [Note.mk 0 0 60 100].filterMap (windowNoteSpec 0 (some 50)) :=
  get_df_excerpt_windows_correctly [⟨0, 0, 60, 100⟩] 0 (some 50)
    (by intro n hn; simp at hn; subst hn; decide) (by decide)
    (by rintro e he; injection he with h; omega)

/-- C9: on a NoteSequence respecting the data-model invariants, namely
canonically sorted with all onsets nonnegative, windowing from 0 with no
upper bound returns the canonically sorted form of the input, since it
drops and changes nothing and performs no reordering. -/
theorem get_df_excerpt_zero_none_eq_sorted (S : List Note)
    (honset : ∀ n ∈ S, 0 ≤ n.onset)
    (hsorted : S.Pairwise fun a b => noteKeyLE a b = true) :
    get_df_excerpt S 0 none = sortNotes S := by
  rw [get_df_excerpt_zero_none S honset, sortNotes,
    List.mergeSort_of_sorted hsorted]

/-- Witness for C9 at a concrete sorted two-note sequence. -/
theorem get_df_excerpt_zero_none_eq_sorted_witness :
    get_df_excerpt [⟨0, 0, 60, 100⟩, ⟨5, 0, 60, 100⟩] 0 none =
      sortNotes [⟨0, 0, 60, 100⟩, ⟨5, 0, 60, 100⟩] :=
  get_df_excerpt_zero_none_eq_sorted [⟨0, 0, 60, 100⟩, ⟨5, 0, 60, 100⟩]
    (by decide) (by decide)

/-- C4: get_note_degs follows the timing decision procedure of the
claim: with both the duration delta and the onset delta under the 40 ms
threshold only a possible pitch mark remains; with a small duration
delta but a large onset delta a time_shift mark is added and the
procedure returns; otherwise onset_shift and offset_shift are marked
independently by their own deltas. The whole table is stated as one
closed form of the output vector. -/
theorem get_note_degs_decision_procedure (gt_note trans_note : Note) :
    get_note_degs gt_note trans_note =
      [if gt_note.pitch ≠ trans_note.pitch then 1 else 0,
       if (gt_note.dur - trans_note.dur).natAbs < MIN_SHIFT_DEFAULT ∧
           (gt_note.onset - trans_note.onset).natAbs ≥ MIN_SHIFT_DEFAULT
         then 1 else 0,
       if (gt_note.dur - trans_note.dur).natAbs ≥ MIN_SHIFT_DEFAULT ∧
           (gt_note.onset - trans_note.onset).natAbs ≥ MIN_SHIFT_DEFAULT
         then 1 else 0,
       if (gt_note.dur - trans_note.dur).natAbs ≥ MIN_SHIFT_DEFAULT ∧
           ((gt_note.onset + gt_note.dur) -
             (trans_note.onset + trans_note.dur)).natAbs ≥ MIN_SHIFT_DEFAULT
         then 1 else 0,
       0, 0] := by
  simp only [get_note_degs]
  split_ifs <;> first | rfl | (exfalso; omega)

/-- C7 counterexample: a pitch difference combined with a pure onset
shift marks both pitch_shift and time_shift, so the returned vector has
two nonzero entries, refuting the at-most-one-nonzero-entry contract. -/
theorem get_note_degs_two_nonzero_entries :
    get_note_degs ⟨0, 0, 60, 500⟩ ⟨100, 0, 62, 500⟩ = [1, 1, 0, 0, 0, 0] ∧
      ¬((get_note_degs ⟨0, 0, 60, 500⟩ ⟨100, 0, 62, 500⟩).countP
          (fun x => decide (x ≠ 0)) ≤ 1) := by
  decide

/-- C7 amended: every entry of the vector returned by get_note_degs is
0 or 1, so every nonzero entry has value 1, but several entries can be
nonzero at once. -/
theorem get_note_degs_entries_le_one (gt_note trans_note : Note) :
    ((get_note_degs gt_note trans_note).all fun x => decide (x ≤ 1)) = true := by
  simp only [get_note_degs]
  split_ifs <;> rfl

/-- C3: with an empty ground-truth excerpt, get_excerpt_degs puts the
transcribed note count in the add_note entry and 0 everywhere else; with
a non-empty ground truth and an empty transcription it puts the
ground-truth note count in the remove_note entry and 0 everywhere
else. -/
theorem get_excerpt_degs_degenerate_cases (gt_excerpt trans_excerpt : List Note) :
    (gt_excerpt = [] →
      get_excerpt_degs gt_excerpt trans_excerpt =
        [0, 0, 0, 0, 0, trans_excerpt.length]) ∧
    (gt_excerpt ≠ [] → trans_excerpt = [] →
      get_excerpt_degs gt_excerpt trans_excerpt =
        [0, 0, 0, 0, gt_excerpt.length, 0]) := by
  constructor
  · rintro rfl
    rfl
  · rintro hgt rfl
    have hlen : gt_excerpt.length ≠ 0 :=
      fun h => hgt (List.length_eq_zero.mp h)
    simp only [get_excerpt_degs, List.length_nil, if_neg hlen]
    rfl

/-- Witness for C3: an empty ground truth against one transcribed note,
and one ground-truth note against an empty transcription. -/
theorem get_excerpt_degs_degenerate_cases_witness :
    get_excerpt_degs [] [⟨0, 0, 60, 100⟩] = [0, 0, 0, 0, 0, 1] ∧
      get_excerpt_degs [⟨0, 0, 60, 100⟩] [] = [0, 0, 0, 0, 1, 0] :=
  ⟨(get_excerpt_degs_degenerate_cases [] [⟨0, 0, 60, 100⟩]).1 rfl,
   (get_excerpt_degs_degenerate_cases [⟨0, 0, 60, 100⟩] []).2
     (by decide) rfl⟩

/-- C10: with both excerpts non-empty, get_excerpt_degs returns the
all-zero degradation vector, because the general alignment case is left
unimplemented in the source. -/
theorem get_excerpt_degs_general_case_zero (gt_excerpt trans_excerpt : List Note)
    (hgt : gt_excerpt ≠ []) (htr : trans_excerpt ≠ []) :
    get_excerpt_degs gt_excerpt trans_excerpt = [0, 0, 0, 0, 0, 0] := by
  have hg : gt_excerpt.length ≠ 0 :=
    fun h => hgt (List.length_eq_zero.mp h)
  have ht : trans_excerpt.length ≠ 0 :=
    fun h => htr (List.length_eq_zero.mp h)
  simp only [get_excerpt_degs, if_neg hg, if_neg ht]
  rfl

/-- Witness for C10: two differing one-note excerpts yield the zero
vector. -/
theorem get_excerpt_degs_general_case_zero_witness :
    get_excerpt_degs [⟨0, 0, 60, 100⟩] [⟨0, 0, 62, 100⟩] =
      [0, 0, 0, 0, 0, 0] :=
  get_excerpt_degs_general_case_zero [⟨0, 0, 60, 100⟩] [⟨0, 0, 62, 100⟩]
    (by decide) (by decide)

/-- C1: whenever pitch_shift returns a degraded excerpt, the output has
the length of the input and equals it except at one index, where only
the pitch field changed, to a value in the configured range
[min_pitch, max_pitch), defaults [0, 88), different from the original
pitch; the onset, duration and track of that note are untouched. -/
theorem pitch_shift_spec (excerpt : List Note) (rand_index : Nat)
    (rand_pitches : List Nat) (params : Params) (out : List Note)
    (hout : pitch_shift excerpt rand_index rand_pitches params = some out) :
    out.length = excerpt.length ∧
      ∃ (j : Nat) (hj : j < excerpt.length) (p : Int),
        out = excerpt.set j { excerpt.get ⟨j, hj⟩ with pitch := p } ∧
        p ≠ (excerpt.get ⟨j, hj⟩).pitch ∧
        params.pitch_shift_min_pitch.getD 0 ≤ p ∧
        p < params.pitch_shift_max_pitch.getD 88 := by
  simp only [pitch_shift] at hout
  split at hout
  · exact absurd hout (by simp)
  · rename_i hne
    split at hout
    · exact absurd hout (by simp)
    · rename_i hrange
      split at hout
      · exact absurd hout (by simp)
      · rename_i p hp
        injection hout with h2
        subst h2
        have hlt : rand_index % excerpt.length < excerpt.length :=
          Nat.mod_lt _ (Nat.pos_of_ne_zero hne)
        obtain ⟨hne2, hlb, hub⟩ :=
          resamplePitch_spec _ _ _ _ _ (by omega) hp
        exact ⟨by simp, rand_index % excerpt.length, hlt, p, rfl, hne2,
          hlb, hub⟩

/-- Witness for C1: a one-note excerpt with default parameters and a
seed stream whose first draw, pitch 5, already differs from the
original pitch 60. -/
theorem pitch_shift_spec_witness :
    ([Note.mk 0 0 5 100] : List Note).length =
        ([Note.mk 0 0 60 100] : List Note).length ∧
      ∃ (j : Nat) (hj : j < ([Note.mk 0 0 60 100] : List Note).length)
          (p : Int),
        [Note.mk 0 0 5 100] =
          ([Note.mk 0 0 60 100] : List Note).set j
            { ([Note.mk 0 0 60 100] : List Note).get ⟨j, hj⟩ with
                pitch := p } ∧
        p ≠ (([Note.mk 0 0 60 100] : List Note).get ⟨j, hj⟩).pitch ∧
        (Params.mk none none).pitch_shift_min_pitch.getD 0 ≤ p ∧
        p < (Params.mk none none).pitch_shift_max_pitch.getD 88 :=
  pitch_shift_spec [⟨0, 0, 60, 100⟩] 0 [5] ⟨none, none⟩ [⟨0, 0, 5, 100⟩]
    (by decide)

/-- C8: with the degenerate configuration min_pitch 60, max_pitch 61
and a note of pitch 60, every draw of the resampling loop yields 60
again, so for every seed stream the loop never terminates and the
embedding returns none; no configuration error is raised up front, the
call just never produces a result. -/
theorem pitch_shift_degenerate_range_loops (rand_index : Nat)
    (rand_pitches : List Nat) :
    pitch_shift [⟨0, 0, 60, 100⟩] rand_index rand_pitches
      (Params.mk (some 60) (some 61)) = none := by
  have hloop : ∀ seeds : List Nat, resamplePitch 60 61 60 seeds = none := by
    intro seeds
    induction seeds with
    | nil => rfl
    | cons s rest ih =>
        have hdraw : randint 60 61 s = 60 := by
          simp [randint]
        simp [resamplePitch, hdraw, ih]
  simp [pitch_shift, Nat.mod_one, hloop]

/-- C5: on a two-note excerpt with a seed that samples index 1,
remove_note drops the first row anyway, so the note that disappears is
not the sampled one: the code returns the excerpt without its head,
which differs from the excerpt without the sampled note; and on an
empty excerpt the call fails. -/
theorem remove_note_drops_row_zero :
    remove_note [⟨0, 0, 60, 100⟩, ⟨50, 0, 62, 100⟩] 1 =
        some [⟨50, 0, 62, 100⟩] ∧
      1 % ([⟨0, 0, 60, 100⟩, ⟨50, 0, 62, 100⟩] : List Note).length = 1 ∧
      (some [(⟨50, 0, 62, 100⟩ : Note)] : Option (List Note)) ≠
        some [⟨0, 0, 60, 100⟩] ∧
      remove_note [] 1 = none := by
  decide

/-- C6: when min_notes exceeds the note counts of both input frames, no
window can reach it, every window is skipped, and get_proportions
completes returning the zero proportion vector and clean fraction 0:
with zero evaluated windows the zero-denominator guard returns the
accumulated counts, which are still zero, and the clean fraction falls
back to its own zero default. -/
theorem get_proportions_all_windows_skipped (gt_df0 trans_df : List Note)
    (trans_start : Int) (trans_end : Option Int)
    (excerpt_length min_notes : Nat)
    (hlen : excerpt_length ≠ 0)
    (hne : get_df_excerpt gt_df0 trans_start trans_end ≠ [])
    (hgt : gt_df0.length < min_notes)
    (htr : trans_df.length < min_notes) :
    get_proportions gt_df0 trans_df trans_start trans_end excerpt_length
      min_notes = some (List.replicate 6 (0 : ℚ), 0) := by
  simp only [get_proportions, if_neg hlen]
  set gt_df1 := get_df_excerpt gt_df0 trans_start trans_end with hdf1
  set gt_df := if trans_start ≠ 0 then
      gt_df1.map fun n => { n with onset := n.onset - trans_start }
    else gt_df1 with hdf
  have hgtlen : gt_df.length < min_notes := by
    have h1 : gt_df1.length ≤ gt_df0.length :=
      get_df_excerpt_length_le _ _ _
    have h2 : gt_df.length = gt_df1.length := by
      rw [hdf]
      split <;> simp
    omega
  have hgtne : gt_df ≠ [] := by
    rw [hdf]
    split
    · simpa using hne
    · exact hne
  have hmax : maxOffset gt_df ≠ none := by
    simp only [maxOffset, ne_eq, List.max?_eq_none_iff, List.map_eq_nil_iff]
    exact hgtne
  cases hm : maxOffset gt_df with
  | none => exact absurd hm hmax
  | some gt_max =>
      simp only
      rw [proportionsStep_foldl_skip _ _ _ _ _ hgtlen htr]
      rfl

/-- Witness for C6: two one-note frames against a minimum of 10 notes
per window make every window skipped. -/
theorem get_proportions_all_windows_skipped_witness :
    get_proportions [⟨0, 0, 60, 100⟩] [⟨0, 0, 60, 100⟩] 0 none 5000 10 =
      some (List.replicate 6 (0 : ℚ), 0) :=
  get_proportions_all_windows_skipped [⟨0, 0, 60, 100⟩] [⟨0, 0, 60, 100⟩]
    0 none 5000 10 (by decide) (by decide) (by decide) (by decide)
